import Mathlib

/-!
Verification development for the urlbar Yelp suggestions feature and for the
Temporal zoned arithmetic core.

Part 1 embeds `browser/components/urlbar/private/YelpSuggestions.sys.mjs`.
Part 2 embeds the Temporal operations `BuiltinTimeZoneGetInstantFor` and
`NormalizedTimeDurationToDays` as the specification document describes them;
the test262 files for `Temporal.ZonedDateTime.prototype.since` and
`Temporal.Duration.prototype.add` exercise these operations, their
implementation is not among the sources.
Definitions come first, theorems follow.
-/

set_option linter.unusedVariables false

namespace YelpSuggestions

/-! ## JavaScript values used by the feature -/

/-- Length of a JavaScript string: the number of UTF-16 code units. -/
def jsLength (s : String) : Nat :=
  (s.toList.map fun c => if c.toNat < 65536 then 1 else 2).sum

/-- The value of `pref || 0` for a numeric pref: an unset pref reads as `0`. -/
def orZero : Option Int → Int
  | none => 0
  | some v => v

/-- Truthiness filter of `loc => !!loc` on an optional string: `undefined`,
`null` and the empty string are dropped. -/
def truthy : Option String → Option String
  | none => none
  | some s => if s = "" then none else some s

/-- The constants of `RESULT_MENU_COMMAND`. -/
def HELP : String := "help"
def INACCURATE_LOCATION : String := "inaccurate_location"
def NOT_INTERESTED : String := "not_interested"
def SHOW_LESS_FREQUENTLY : String := "show_less_frequentry"

/-! ## URL search parameters (the part of the URL standard the feature calls) -/

/-- A parsed URL: everything except the query, and the query as an ordered
list of name/value pairs. -/
structure URL where
  base : String
  searchParams : List (String × String)
  deriving DecidableEq, Repr

/-- `URLSearchParams.has(name)`. -/
def spHas (ps : List (String × String)) (name : String) : Bool :=
  ps.any fun p => p.1 == name

/-- `URLSearchParams.get(name)`: the value of the first pair named `name`. -/
def spGet : List (String × String) → String → Option String
  | [], _ => none
  | (k, v) :: rest, name => if k = name then some v else spGet rest name

/-- The replacing half of `URLSearchParams.set`: the first pair named `name`
gets `value`, every later pair with that name is removed. -/
def spSetFirst (name value : String) : List (String × String) → List (String × String)
  | [] => []
  | (k, v) :: rest =>
    if k = name then (name, value) :: rest.filter (fun p => p.1 != name)
    else (k, v) :: spSetFirst name value rest

/-- `URLSearchParams.set(name, value)`. -/
def spSet (ps : List (String × String)) (name value : String) : List (String × String) :=
  if spHas ps name then spSetFirst name value ps else ps ++ [(name, value)]

/-! ## Feature state -/

/-- The prefs the feature reads through `UrlbarPrefs.get`; numeric prefs may be
unset. -/
structure UrlbarPrefs where
  suggestQuicksuggestSponsored : Bool
  yelpFeatureGate : Bool
  suggestYelp : Bool
  yelpSuggestPriority : Bool
  yelpMinKeywordLength : Option Int
  yelpShowLessFrequentlyCount : Option Int
  yelpShowLessFrequentlyCap : Option Int
  deriving DecidableEq, Repr

/-- The argument of one `MerinoClient.fetch` call. -/
structure MerinoRequest where
  providers : List String
  query : String
  deriving DecidableEq, Repr

/-- The `custom_details.geolocation` object of a Merino suggestion. -/
structure Geolocation where
  city : Option String
  region : Option String
  deriving DecidableEq, Repr

/-- One element of the array a Merino fetch resolves to; `geolocation = none`
stands for a suggestion without `custom_details.geolocation`. -/
structure MerinoSuggestion where
  geolocation : Option Geolocation
  deriving DecidableEq, Repr

/-- Calls the feature makes on the view. -/
inductive ViewEvent where
  | acknowledgeFeedback
  | removeResult
  | invalidateResultMenuCommands
  deriving DecidableEq, Repr

/-- The mutable world of the feature: the prefs, whether `#merino` holds a
client, the log of Merino fetches and the log of view calls. -/
structure State where
  prefs : UrlbarPrefs
  merino : Bool
  fetches : List MerinoRequest
  view : List ViewEvent
  deriving DecidableEq, Repr

/-- The Rust suggestion handed to `makeResult`. -/
structure Suggestion where
  url : String
  title : String
  is_top_pick : Option Bool
  deriving DecidableEq, Repr

/-- The `UrlbarResult` built by `makeResult`. -/
structure UrlbarResult where
  url : URL
  title : String
  shouldShowUrl : Bool
  richSuggestionIconSize : Nat
  showFeedbackMenu : Bool
  acknowledgeDismissalL10n : Option String
  deriving DecidableEq, Repr

/-- What an async method settles to. -/
inductive Outcome (α : Type) where
  | null : Outcome α
  | value : α → Outcome α
  | typeError : Outcome α
  deriving DecidableEq, Repr

/-! ## The getters -/

/-- `get shouldEnable`. -/
def shouldEnable (p : UrlbarPrefs) : Bool :=
  p.suggestQuicksuggestSponsored && p.yelpFeatureGate && p.suggestYelp

/-- `get #minKeywordLength`. -/
def minKeywordLength (p : UrlbarPrefs) : Int :=
  max (orZero p.yelpMinKeywordLength) 0

/-- `get #showLessFrequentlyCount`. -/
def showLessFrequentlyCount (p : UrlbarPrefs) : Int :=
  max (orZero p.yelpShowLessFrequentlyCount) 0

/-- `get #canShowLessFrequently`. -/
def canShowLessFrequently (p : UrlbarPrefs) : Bool :=
  let cap := orZero p.yelpShowLessFrequentlyCap
  decide (cap = 0) || decide (showLessFrequentlyCount p < cap)

/-! ## The methods -/

/-- `enable(enabled)`. -/
def enable (st : State) (enabled : Bool) : State :=
  if enabled then st else { st with merino := false }

/-- `#fetchCity()`; `response` is what the awaited Merino fetch resolves to. -/
def fetchCity (response : List MerinoSuggestion) (st : State) :
    State × Outcome String :=
  let st1 : State := if st.merino then st else { st with merino := true }
  let st2 : State :=
    { st1 with fetches := st1.fetches ++ [{ providers := ["geolocation"], query := "" }] }
  match response with
  | [] => (st2, Outcome.null)
  | r :: _ =>
    match r.geolocation with
    | none => (st2, Outcome.typeError)
    | some g =>
      (st2, Outcome.value (", ".intercalate ([g.city, g.region].filterMap truthy)))

/-- The result object assembled at the end of `makeResult`. -/
def buildResult (url : URL) (title : String) : UrlbarResult :=
  { url :=
      { url with
        searchParams :=
          spSet (spSet url.searchParams "utm_medium" "partner") "utm_source" "mozilla" }
    title := title
    shouldShowUrl := true
    richSuggestionIconSize := 24
    showFeedbackMenu := true
    acknowledgeDismissalL10n := none }

/-- `makeResult(queryContext, suggestion, searchString)`. `parseURL` is the
platform's `new URL(...)` (`none` when it throws) and `response` is what the
Merino fetch resolves to if it is issued. The function returns the new state,
the suggestion after its `is_top_pick` assignment, and the settled value. -/
def makeResult (parseURL : String → Option URL) (response : List MerinoSuggestion)
    (st : State) (suggestion : Suggestion) (searchString : String) :
    State × Suggestion × Outcome UrlbarResult :=
  if showLessFrequentlyCount st.prefs ≠ 0 ∧
      (jsLength searchString : Int) ≤
        showLessFrequentlyCount st.prefs + minKeywordLength st.prefs then
    (st, suggestion, Outcome.null)
  else
    let suggestion1 : Suggestion :=
      { suggestion with is_top_pick := some st.prefs.yelpSuggestPriority }
    match parseURL suggestion.url with
    | none => (st, suggestion1, Outcome.typeError)
    | some url =>
      let title := suggestion.title
      if !spHas url.searchParams "find_loc" then
        match fetchCity response st with
        | (st1, Outcome.typeError) => (st1, suggestion1, Outcome.typeError)
        | (st1, Outcome.null) => (st1, suggestion1, Outcome.value (buildResult url title))
        | (st1, Outcome.value city) =>
          if city ≠ "" then
            (st1, suggestion1,
              Outcome.value
                (buildResult { url with searchParams := spSet url.searchParams "find_loc" city }
                  (title ++ " in " ++ city)))
          else (st1, suggestion1, Outcome.value (buildResult url title))
      else (st, suggestion1, Outcome.value (buildResult url title))

/-- `getResultCommands(result)`, as the list of command names. -/
def getResultCommands (st : State) : List String :=
  [INACCURATE_LOCATION]
    ++ (if canShowLessFrequently st.prefs then [SHOW_LESS_FREQUENTLY] else [])
    ++ [NOT_INTERESTED, "separator", HELP]

/-- `#incrementShowLessFrequentlyCount()`. -/
def incrementShowLessFrequentlyCount (st : State) : State :=
  if canShowLessFrequently st.prefs then
    { st with
      prefs :=
        { st.prefs with
          yelpShowLessFrequentlyCount := some (showLessFrequentlyCount st.prefs + 1) } }
  else st

/-- `handleCommand(view, result, selType)`. -/
def handleCommand (st : State) (result : UrlbarResult) (selType : String) :
    State × UrlbarResult :=
  if selType = HELP then (st, result)
  else if selType = INACCURATE_LOCATION then
    ({ st with view := st.view ++ [ViewEvent.acknowledgeFeedback] }, result)
  else if selType = NOT_INTERESTED then
    ({ st with
        prefs := { st.prefs with suggestYelp := false }
        view := st.view ++ [ViewEvent.removeResult] },
      { result with
        acknowledgeDismissalL10n := some "firefox-suggest-dismissal-acknowledgment-all" })
  else if selType = "dismiss" ∨ selType = SHOW_LESS_FREQUENTLY then
    let st1 : State := { st with view := st.view ++ [ViewEvent.acknowledgeFeedback] }
    let st2 := incrementShowLessFrequentlyCount st1
    if !canShowLessFrequently st2.prefs then
      ({ st2 with view := st2.view ++ [ViewEvent.invalidateResultMenuCommands] }, result)
    else (st2, result)
  else (st, result)

/-- The state after a sequence of `handleCommand` calls on one result. -/
def handleCommands (st : State) (result : UrlbarResult) : List String → State × UrlbarResult
  | [] => (st, result)
  | sel :: rest =>
    let r := handleCommand st result sel
    handleCommands r.1 r.2 rest

/-- How a numeric pref is read when a missing or negative value counts as `0`. -/
def prefReadAsCount : Option Int → Int
  | none => 0
  | some v => if v < 0 then 0 else v

/-! ## Concrete inputs -/

/-- A stand-in for `new URL(...)`: every string parses, to a URL whose query is
`find_desc=ramen`. -/
def yelpParse : String → Option URL :=
  fun s => some { base := s, searchParams := [("find_desc", "ramen")] }

/-- A stand-in for `new URL(...)` whose result already carries `find_loc`. -/
def yelpParseWithLocation : String → Option URL :=
  fun s => some { base := s, searchParams := [("find_desc", "ramen"), ("find_loc", "tokyo")] }

/-- Prefs with a negative stored count, a minimum keyword length of 4 and a cap
of 3. -/
def yelpPrefs : UrlbarPrefs :=
  { suggestQuicksuggestSponsored := true
    yelpFeatureGate := true
    suggestYelp := true
    yelpSuggestPriority := false
    yelpMinKeywordLength := some 4
    yelpShowLessFrequentlyCount := some (-5)
    yelpShowLessFrequentlyCap := some 3 }

/-- The initial state: no Merino client, nothing fetched, no view call. -/
def yelpState : State := { prefs := yelpPrefs, merino := false, fetches := [], view := [] }

/-- A Yelp suggestion. -/
def yelpSuggestion : Suggestion :=
  { url := "https://www.yelp.com/search", title := "Ramen", is_top_pick := none }

/-- A Merino answer with a city and a region. -/
def yelpResponse : List MerinoSuggestion :=
  [{ geolocation := some { city := some "Yokohama", region := some "Kanagawa" } }]

/-- The state after `makeResult` on the inputs above: a client exists and one
fetch is logged. -/
def yelpStateAfter : State :=
  { prefs := yelpPrefs
    merino := true
    fetches := [{ providers := ["geolocation"], query := "" }]
    view := [] }

/-- The result `makeResult` builds on the inputs above. -/
def yelpResult : UrlbarResult :=
  { url :=
      { base := "https://www.yelp.com/search"
        searchParams :=
          [("find_desc", "ramen"), ("find_loc", "Yokohama, Kanagawa"),
            ("utm_medium", "partner"), ("utm_source", "mozilla")] }
    title := "Ramen in Yokohama, Kanagawa"
    shouldShowUrl := true
    richSuggestionIconSize := 24
    showFeedbackMenu := true
    acknowledgeDismissalL10n := none }

end YelpSuggestions

namespace Temporal

/-! ## Data model (specification §3, §4.2) -/

/-- Modelled from the spec: the nanoseconds of a civil day without transitions,
86,400,000,000,000 (specification §8). -/
def nsPerDay : Int := 86400000000000

/-- Modelled from the spec: the bound `2^53` on the magnitude of a day length
(specification §4.4 step 3). -/
def dayLengthBound : Int := 2 ^ 53

/-- Modelled from the spec: the four error kinds of specification §7; the
library code that raises them is not part of the sources at hand. -/
inductive TemporalError where
  | ConstructionError
  | ResolutionError
  | SignInconsistencyError
  | UnsafeDayLengthError
  deriving DecidableEq, Repr

/-- Modelled from the spec: the disambiguation policies of specification §4.3. -/
inductive Disambiguation where
  | compatible
  | earlier
  | later
  | reject
  deriving DecidableEq, Repr

/-- Modelled from the spec: the answer of `getPossibleInstantsFor`
(specification §4.2): zero entries in a gap, one entry when unambiguous, two
entries ordered earlier-then-later in a fold. Instants are integer
nanoseconds since the epoch. -/
inductive PossibleInstants where
  | gap : PossibleInstants
  | unique : Int → PossibleInstants
  | fold : Int → Int → PossibleInstants
  deriving DecidableEq, Repr

/-- Modelled from the spec: the number of candidates in an answer of
`getPossibleInstantsFor`. -/
def PossibleInstants.count : PossibleInstants → Nat
  | PossibleInstants.gap => 0
  | PossibleInstants.unique _ => 1
  | PossibleInstants.fold _ _ => 2

/-- Modelled from the spec: the TimeZone capability of specification §4.2 and
§6, a pair of pure functions, built in or supplied by the caller. A wall-clock
date-time of the ISO calendar is represented by its nanoseconds since
1970-01-01T00:00 on the wall clock. -/
structure TimeZone where
  getPossibleInstantsFor : Int → PossibleInstants
  getOffsetNanosecondsFor : Int → Int

/-- Modelled from the spec: `BuiltinTimeZoneGetInstantFor` of specification
§4.3, whose implementation is not part of the sources at hand. In a gap the
offsets "just before and after" are read one day before and one day after the
wall-clock value, one day being the bound on an offset (§4.2). -/
def BuiltinTimeZoneGetInstantFor (timeZone : TimeZone) (dateTime : Int)
    (disambiguation : Disambiguation) : Except TemporalError Int :=
  match timeZone.getPossibleInstantsFor dateTime with
  | PossibleInstants.unique c => Except.ok c
  | PossibleInstants.fold first second =>
    match disambiguation with
    | Disambiguation.earlier => Except.ok first
    | Disambiguation.later => Except.ok second
    | Disambiguation.compatible => Except.ok first
    | Disambiguation.reject => Except.error TemporalError.ResolutionError
  | PossibleInstants.gap =>
    let offsetBefore := timeZone.getOffsetNanosecondsFor (dateTime - nsPerDay)
    let offsetAfter := timeZone.getOffsetNanosecondsFor (dateTime + nsPerDay)
    match disambiguation with
    | Disambiguation.compatible => Except.ok (dateTime - offsetBefore)
    | Disambiguation.earlier => Except.ok (dateTime - offsetBefore)
    | Disambiguation.later => Except.ok (dateTime - offsetAfter)
    | Disambiguation.reject => Except.error TemporalError.ResolutionError

/-- Modelled from the spec: the wall-clock start of the civil day that contains
the wall-clock value `w` (specification §4.4 step 2, ISO calendar). -/
def startOfDay (w : Int) : Int := Int.fdiv w nsPerDay * nsPerDay

/-- Modelled from the spec: steps 2 and 3 of specification §4.4 for the civil
day starting at wall-clock `dayStart`: both day starts are resolved through
`BuiltinTimeZoneGetInstantFor` (default policy `compatible`), the day length is
their difference and it is rejected when its absolute value reaches `2^53`. -/
def dayLengthAt (timeZone : TimeZone) (dayStart : Int) : Except TemporalError Int :=
  match BuiltinTimeZoneGetInstantFor timeZone dayStart Disambiguation.compatible with
  | Except.error e => Except.error e
  | Except.ok startInstant =>
    match BuiltinTimeZoneGetInstantFor timeZone (dayStart + nsPerDay)
        Disambiguation.compatible with
    | Except.error e => Except.error e
    | Except.ok endInstant =>
      let dayLength := endInstant - startInstant
      if |dayLength| ≥ dayLengthBound then Except.error TemporalError.UnsafeDayLengthError
      else Except.ok dayLength

/-- Modelled from the spec: the triple `(days, remainder, finalDayLength)`
returned by step 7 of specification §4.4. -/
structure DaysResult where
  days : Int
  remainder : Int
  dayLength : Int
  deriving DecidableEq, Repr

/-- Modelled from the spec: the loop of step 6 of specification §4.4. `anchor`
is the wall-clock start of the anchor's day, `sign` the sign of `norm`. Each
turn queries the length of the next day in the direction of `sign` (validated
as in step 3) and, when the remainder's magnitude reaches it, moves the anchor
there, steps `days` and reduces `remainder`. `fuel` bounds the number of
turns; `none` means the bound was reached with the loop still running. -/
def adjustDays (timeZone : TimeZone) (sign : Int) :
    Nat → Int → Int → Int → Int → Option (Except TemporalError DaysResult)
  | 0, _, _, _, _ => none
  | fuel + 1, anchor, days, remainder, dayLength =>
    let next := anchor + sign * nsPerDay
    match dayLengthAt timeZone next with
    | Except.error e => some (Except.error e)
    | Except.ok nextLength =>
      if |remainder| ≥ nextLength then
        adjustDays timeZone sign fuel next (days + sign) (remainder - sign * nextLength)
          nextLength
      else some (Except.ok { days := days, remainder := remainder, dayLength := dayLength })

/-- Modelled from the spec: `NormalizedTimeDurationToDays` of specification
§4.4 over the ISO calendar; its implementation is not part of the sources at
hand. `norm` is the duration in nanoseconds, `zonedRelativeTo` the anchor's
instant. The quotient of step 4 truncates toward zero. -/
def NormalizedTimeDurationToDays (fuel : Nat) (norm : Int) (zonedRelativeTo : Int)
    (timeZone : TimeZone) : Option (Except TemporalError DaysResult) :=
  let anchor := startOfDay (zonedRelativeTo + timeZone.getOffsetNanosecondsFor zonedRelativeTo)
  match dayLengthAt timeZone anchor with
  | Except.error e => some (Except.error e)
  | Except.ok dayLength =>
    if norm = 0 then some (Except.ok { days := 0, remainder := 0, dayLength := dayLength })
    else
      let days := Int.tdiv norm dayLength
      let remainder := norm - days * dayLength
      if days ≠ 0 ∧ Int.sign days ≠ Int.sign norm then
        some (Except.error TemporalError.SignInconsistencyError)
      else adjustDays timeZone (Int.sign norm) fuel anchor days remainder dayLength

/-! ## Time zones used as concrete inputs -/

/-- The built-in UTC time zone. -/
def utc : TimeZone :=
  { getPossibleInstantsFor := fun w => PossibleInstants.unique w
    getOffsetNanosecondsFor := fun _ => 0 }

/-- UTC, except that the start of 1970-01-02 resolves to the instant `2^53`. -/
def outrageousZone : TimeZone :=
  { getPossibleInstantsFor := fun w =>
      if w = nsPerDay then PossibleInstants.unique (2 ^ 53) else PossibleInstants.unique w
    getOffsetNanosecondsFor := fun _ => 0 }

/-- A time zone with a fold at every wall-clock value. -/
def foldZone : TimeZone :=
  { getPossibleInstantsFor := fun w => PossibleInstants.fold w (w + 3600000000000)
    getOffsetNanosecondsFor := fun _ => 0 }

/-- A time zone with a gap at every wall-clock value. -/
def gapZone : TimeZone :=
  { getPossibleInstantsFor := fun _ => PossibleInstants.gap
    getOffsetNanosecondsFor := fun _ => 3600000000000 }

end Temporal

namespace YelpSuggestions

theorem spHas_nil (m : String) : spHas [] m = false := rfl

theorem spHas_cons (k v : String) (rest : List (String × String)) (m : String) :
    spHas ((k, v) :: rest) m = (decide (k = m) || spHas rest m) := by
  by_cases hk : k = m <;> simp [spHas, hk]

theorem spGet_nil (m : String) : spGet [] m = none := rfl

theorem spGet_cons (k v : String) (rest : List (String × String)) (m : String) :
    spGet ((k, v) :: rest) m = if k = m then some v else spGet rest m := rfl

theorem filter_ne_cons (name k v : String) (rest : List (String × String)) :
    ((k, v) :: rest).filter (fun p => p.1 != name) =
      if k = name then rest.filter (fun p => p.1 != name)
      else (k, v) :: rest.filter (fun p => p.1 != name) := by
  by_cases hk : k = name <;> simp [List.filter_cons, hk]

theorem spHas_filter_ne (name m : String) (h : name ≠ m) (ps : List (String × String)) :
    spHas (ps.filter (fun p => p.1 != name)) m = spHas ps m := by
  induction ps with
  | nil => rfl
  | cons p rest ih =>
    obtain ⟨k, v⟩ := p
    rw [filter_ne_cons, spHas_cons]
    by_cases hp : k = name
    · have hm : ¬ k = m := fun e => h (hp.symm.trans e)
      rw [if_pos hp, ih]; simp [hm]
    · rw [if_neg hp, spHas_cons, ih]

theorem spGet_filter_ne (name m : String) (h : name ≠ m) (ps : List (String × String)) :
    spGet (ps.filter (fun p => p.1 != name)) m = spGet ps m := by
  induction ps with
  | nil => rfl
  | cons p rest ih =>
    obtain ⟨k, v⟩ := p
    rw [filter_ne_cons, spGet_cons]
    by_cases hp : k = name
    · have hm : ¬ k = m := fun e => h (hp.symm.trans e)
      rw [if_pos hp, ih, if_neg hm]
    · rw [if_neg hp, spGet_cons, ih]

theorem spSetFirst_cons (name value k v : String) (rest : List (String × String)) :
    spSetFirst name value ((k, v) :: rest) =
      if k = name then (name, value) :: rest.filter (fun p => p.1 != name)
      else (k, v) :: spSetFirst name value rest := rfl

theorem spHas_spSetFirst_ne (name value m : String) (h : name ≠ m) (ps : List (String × String)) :
    spHas (spSetFirst name value ps) m = spHas ps m := by
  induction ps with
  | nil => rfl
  | cons p rest ih =>
    obtain ⟨k, v⟩ := p
    rw [spSetFirst_cons, spHas_cons]
    by_cases hp : k = name
    · have hm : ¬ k = m := fun e => h (hp.symm.trans e)
      rw [if_pos hp, spHas_cons, spHas_filter_ne name m h]; simp [hm, h]
    · rw [if_neg hp, spHas_cons, ih]

theorem spGet_spSetFirst_ne (name value m : String) (h : name ≠ m) (ps : List (String × String)) :
    spGet (spSetFirst name value ps) m = spGet ps m := by
  induction ps with
  | nil => rfl
  | cons p rest ih =>
    obtain ⟨k, v⟩ := p
    rw [spSetFirst_cons, spGet_cons]
    by_cases hp : k = name
    · have hm : ¬ k = m := fun e => h (hp.symm.trans e)
      rw [if_pos hp, spGet_cons, if_neg h, if_neg hm, spGet_filter_ne name m h]
    · rw [if_neg hp, spGet_cons, ih]

theorem spHas_append (ps qs : List (String × String)) (m : String) :
    spHas (ps ++ qs) m = (spHas ps m || spHas qs m) := by
  simp [spHas]

theorem spGet_append_of_has_false (ps qs : List (String × String)) (m : String)
    (h : spHas ps m = false) : spGet (ps ++ qs) m = spGet qs m := by
  induction ps with
  | nil => rfl
  | cons p rest ih =>
    obtain ⟨k, v⟩ := p
    rw [spHas_cons] at h
    have hk : ¬ k = m := by
      intro e; simp [e] at h
    have hr : spHas rest m = false := by
      cases hh : spHas rest m
      · rfl
      · rw [hh] at h; simp at h
    rw [List.cons_append, spGet_cons, if_neg hk]
    exact ih hr

theorem spGet_append_of_has_true (ps qs : List (String × String)) (m : String)
    (h : spHas ps m = true) : spGet (ps ++ qs) m = spGet ps m := by
  induction ps with
  | nil => simp [spHas] at h
  | cons p rest ih =>
    obtain ⟨k, v⟩ := p
    rw [List.cons_append, spGet_cons, spGet_cons]
    by_cases hk : k = m
    · rw [if_pos hk, if_pos hk]
    · rw [if_neg hk, if_neg hk]
      apply ih
      rw [spHas_cons] at h
      simpa [hk] using h

theorem spGet_eq_none_of_has_false (ps : List (String × String)) (m : String)
    (h : spHas ps m = false) : spGet ps m = none := by
  have := spGet_append_of_has_false ps [] m h
  simpa using this

/-- Setting one parameter does not change whether another one is present. -/
theorem spHas_spSet_ne (ps : List (String × String)) (name value m : String) (h : name ≠ m) :
    spHas (spSet ps name value) m = spHas ps m := by
  unfold spSet
  split
  · exact spHas_spSetFirst_ne name value m h ps
  · rw [spHas_append, spHas_cons, spHas_nil]
    simp [h]

/-- Setting one parameter does not change the value of another one. -/
theorem spGet_spSet_ne (ps : List (String × String)) (name value m : String) (h : name ≠ m) :
    spGet (spSet ps name value) m = spGet ps m := by
  unfold spSet
  split
  · exact spGet_spSetFirst_ne name value m h ps
  · by_cases hm : spHas ps m = true
    · exact spGet_append_of_has_true ps _ m hm
    · have hm2 : spHas ps m = false := by simpa using hm
      rw [spGet_append_of_has_false ps _ m hm2, spGet_eq_none_of_has_false ps m hm2,
        spGet_cons, if_neg h, spGet_nil]

theorem spGet_spSetFirst_self (name value : String) (ps : List (String × String))
    (hh : spHas ps name = true) : spGet (spSetFirst name value ps) name = some value := by
  induction ps with
  | nil => simp [spHas] at hh
  | cons p rest ih =>
    obtain ⟨k, v⟩ := p
    rw [spSetFirst_cons]
    by_cases hk : k = name
    · rw [if_pos hk, spGet_cons, if_pos rfl]
    · rw [if_neg hk, spGet_cons, if_neg hk]
      apply ih
      rw [spHas_cons] at hh
      simpa [hk] using hh

/-- After `set(name, value)`, `get(name)` is `value`. -/
theorem spGet_spSet_self (ps : List (String × String)) (name value : String) :
    spGet (spSet ps name value) name = some value := by
  unfold spSet
  split
  · rename_i hh
    exact spGet_spSetFirst_self name value ps hh
  · rename_i hh
    have hh2 : spHas ps name = false := by simpa using hh
    rw [spGet_append_of_has_false ps _ name hh2, spGet_cons, if_pos rfl]

theorem max_orZero_eq (o : Option Int) : max (orZero o) 0 = prefReadAsCount o := by
  cases o with
  | none => simp [orZero, prefReadAsCount]
  | some v =>
    simp only [orZero, prefReadAsCount]
    split
    · omega
    · omega

theorem showLessFrequentlyCount_nonneg (p : UrlbarPrefs) : 0 ≤ showLessFrequentlyCount p := by
  unfold showLessFrequentlyCount; omega

/-- The prefs after one `handleCommand`. -/
theorem handleCommand_prefs (st : State) (result : UrlbarResult) (sel : String) :
    (handleCommand st result sel).1.prefs =
      if sel = HELP then st.prefs
      else if sel = INACCURATE_LOCATION then st.prefs
      else if sel = NOT_INTERESTED then { st.prefs with suggestYelp := false }
      else if sel = "dismiss" ∨ sel = SHOW_LESS_FREQUENTLY then
        (if canShowLessFrequently st.prefs then
          { st.prefs with
            yelpShowLessFrequentlyCount := some (showLessFrequentlyCount st.prefs + 1) }
        else st.prefs)
      else st.prefs := by
  unfold handleCommand incrementShowLessFrequentlyCount
  dsimp only
  split_ifs <;> rfl

theorem canShow_iff (p : UrlbarPrefs) :
    canShowLessFrequently p = true ↔
      (orZero p.yelpShowLessFrequentlyCap = 0 ∨
        showLessFrequentlyCount p < orZero p.yelpShowLessFrequentlyCap) := by
  simp [canShowLessFrequently]

theorem handleCommand_cap (st : State) (result : UrlbarResult) (sel : String) :
    (handleCommand st result sel).1.prefs.yelpShowLessFrequentlyCap =
      st.prefs.yelpShowLessFrequentlyCap := by
  rw [handleCommand_prefs]
  repeat' split
  all_goals rfl

theorem handleCommand_stored_le (st : State) (result : UrlbarResult) (sel : String) (cap : Int)
    (hpos : 0 < cap) (hcap : st.prefs.yelpShowLessFrequentlyCap = some cap)
    (hle : ∀ v, st.prefs.yelpShowLessFrequentlyCount = some v → v ≤ cap) :
    ∀ v, (handleCommand st result sel).1.prefs.yelpShowLessFrequentlyCount = some v → v ≤ cap := by
  rw [handleCommand_prefs]
  intro v
  repeat' split
  any_goals exact hle v
  rename_i hc
  rw [canShow_iff, hcap] at hc
  simp only [orZero] at hc
  intro hv
  simp at hv
  omega

theorem handleCommands_stored_le (cap : Int) (hpos : 0 < cap) (result : UrlbarResult)
    (cmds : List String) :
    ∀ (st : State) (result : UrlbarResult), st.prefs.yelpShowLessFrequentlyCap = some cap →
      (∀ v, st.prefs.yelpShowLessFrequentlyCount = some v → v ≤ cap) →
      ((∀ v, (handleCommands st result cmds).1.prefs.yelpShowLessFrequentlyCount = some v →
          v ≤ cap) ∧
        (handleCommands st result cmds).1.prefs.yelpShowLessFrequentlyCap = some cap) := by
  induction cmds with
  | nil => intro st result hcap hle; exact ⟨hle, hcap⟩
  | cons sel rest ih =>
    intro st result hcap hle
    simp only [handleCommands]
    apply ih
    · rw [handleCommand_cap]; exact hcap
    · exact handleCommand_stored_le st result sel cap hpos hcap hle

theorem count_le_of_stored_le (p : UrlbarPrefs) (cap : Int) (hpos : 0 < cap)
    (hle : ∀ v, p.yelpShowLessFrequentlyCount = some v → v ≤ cap) :
    showLessFrequentlyCount p ≤ cap := by
  unfold showLessFrequentlyCount
  cases h : p.yelpShowLessFrequentlyCount with
  | none => simp [orZero]; omega
  | some v =>
    have := hle v h
    simp only [orZero]; omega

/-- Claim C10: the show-less-frequently count never passes its cap. For a
positive cap and a stored count that is at most the cap, the stored count (and
the count read by `#showLessFrequentlyCount`) is still at most the cap after
any sequence of `handleCommand` calls; `dismiss` and `show_less_frequentry`
raise the count by exactly 1 while it is below the cap (the pref is written as
the count read plus 1, which is the stored value plus 1 whenever the stored
value is not negative) and leave the pref unchanged once the count has reached
the cap; every other command leaves the pref unchanged. The
`show_less_frequentry` entry is in `getResultCommands` exactly when the cap is
0 or unset or the count is below the cap. -/
theorem showLessFrequentlyCount_capped :
    (∀ (st : State) (result : UrlbarResult) (cap : Int), 0 < cap →
      st.prefs.yelpShowLessFrequentlyCap = some cap →
      (∀ v, st.prefs.yelpShowLessFrequentlyCount = some v → v ≤ cap) →
      (∀ cmds : List String,
        (∀ v, (handleCommands st result cmds).1.prefs.yelpShowLessFrequentlyCount = some v →
          v ≤ cap) ∧
        showLessFrequentlyCount (handleCommands st result cmds).1.prefs ≤ cap) ∧
      (∀ sel : String, sel = "dismiss" ∨ sel = "show_less_frequentry" →
        (showLessFrequentlyCount st.prefs < cap →
          (handleCommand st result sel).1.prefs.yelpShowLessFrequentlyCount =
              some (showLessFrequentlyCount st.prefs + 1) ∧
            showLessFrequentlyCount (handleCommand st result sel).1.prefs =
              showLessFrequentlyCount st.prefs + 1 ∧
            (∀ v, 0 ≤ v → st.prefs.yelpShowLessFrequentlyCount = some v →
              (handleCommand st result sel).1.prefs.yelpShowLessFrequentlyCount = some (v + 1))) ∧
        (cap ≤ showLessFrequentlyCount st.prefs →
          (handleCommand st result sel).1.prefs.yelpShowLessFrequentlyCount =
            st.prefs.yelpShowLessFrequentlyCount)) ∧
      (∀ sel : String, sel ≠ "dismiss" → sel ≠ "show_less_frequentry" →
        (handleCommand st result sel).1.prefs.yelpShowLessFrequentlyCount =
          st.prefs.yelpShowLessFrequentlyCount)) ∧
    (∀ st : State,
      "show_less_frequentry" ∈ getResultCommands st ↔
        (orZero st.prefs.yelpShowLessFrequentlyCap = 0 ∨
          showLessFrequentlyCount st.prefs < orZero st.prefs.yelpShowLessFrequentlyCap)) := by
  refine ⟨?_, ?_⟩
  · intro st result cap hpos hcap hle
    refine ⟨?_, ?_, ?_⟩
    · intro cmds
      have h := handleCommands_stored_le cap hpos result cmds st result hcap hle
      exact ⟨h.1, count_le_of_stored_le _ cap hpos h.1⟩
    · intro sel hsel
      have hprefs := handleCommand_prefs st result sel
      have h1 : ¬ sel = HELP := by
        rcases hsel with h | h <;> rw [h] <;> decide
      have h2 : ¬ sel = INACCURATE_LOCATION := by
        rcases hsel with h | h <;> rw [h] <;> decide
      have h3 : ¬ sel = NOT_INTERESTED := by
        rcases hsel with h | h <;> rw [h] <;> decide
      have h4 : sel = "dismiss" ∨ sel = SHOW_LESS_FREQUENTLY := hsel
      rw [if_neg h1, if_neg h2, if_neg h3, if_pos h4] at hprefs
      have hnn := showLessFrequentlyCount_nonneg st.prefs
      constructor
      · intro hlt
        have hc : canShowLessFrequently st.prefs = true := by
          rw [canShow_iff, hcap]; right; simpa [orZero] using hlt
        rw [if_pos hc] at hprefs
        rw [hprefs]
        refine ⟨rfl, ?_, ?_⟩
        · simp only [showLessFrequentlyCount, orZero]
          unfold showLessFrequentlyCount at hnn
          omega
        · intro v hv hst
          simp only [showLessFrequentlyCount, hst, orZero]
          congr 1
          omega
      · intro hge
        have hc : ¬ canShowLessFrequently st.prefs = true := by
          rw [canShow_iff, hcap]
          simp only [orZero]
          omega
        rw [if_neg hc] at hprefs
        rw [hprefs]
    · intro sel hd hs
      rw [handleCommand_prefs]
      have h4 : ¬ (sel = "dismiss" ∨ sel = SHOW_LESS_FREQUENTLY) := by
        rintro (h | h)
        · exact hd h
        · exact hs h
      rw [if_neg h4]
      repeat' split
      all_goals rfl
  · intro st
    rw [← canShow_iff]
    unfold getResultCommands
    by_cases hc : canShowLessFrequently st.prefs = true
    · simp [hc, SHOW_LESS_FREQUENTLY]
    · simp [hc, SHOW_LESS_FREQUENTLY, INACCURATE_LOCATION, NOT_INTERESTED, HELP]

/-- Witness for C10: with cap 3 and a stored count of -5, four dismissals and
a help command leave the stored count at 3, and the first dismissal reads the
count 0 and stores 1. -/
theorem showLessFrequentlyCount_capped_witness :
    ((∀ v, (handleCommands yelpState (buildResult { base := "", searchParams := [] } "")
          ["dismiss", "dismiss", "show_less_frequentry", "dismiss", "help"]).1.prefs.yelpShowLessFrequentlyCount
        = some v → v ≤ 3) ∧
      showLessFrequentlyCount
          (handleCommands yelpState (buildResult { base := "", searchParams := [] } "")
            ["dismiss", "dismiss", "show_less_frequentry", "dismiss", "help"]).1.prefs ≤ 3) ∧
    (handleCommand yelpState (buildResult { base := "", searchParams := [] } "")
        "dismiss").1.prefs.yelpShowLessFrequentlyCount = some (showLessFrequentlyCount yelpState.prefs + 1) :=
  ⟨((showLessFrequentlyCount_capped.1 yelpState
        (buildResult { base := "", searchParams := [] } "") 3 (by decide) rfl
        (by intro v hv; cases hv; decide)).1
      ["dismiss", "dismiss", "show_less_frequentry", "dismiss", "help"]),
    (((showLessFrequentlyCount_capped.1 yelpState
        (buildResult { base := "", searchParams := [] } "") 3 (by decide) rfl
        (by intro v hv; cases hv; decide)).2.1 "dismiss" (Or.inl rfl)).1 (by decide)).1⟩

/-- The null branch of `makeResult` is exactly its first guard. -/
theorem makeResult_guard_iff (parseURL : String → Option URL)
    (response : List MerinoSuggestion) (st : State) (suggestion : Suggestion)
    (searchString : String) :
    (makeResult parseURL response st suggestion searchString).2.2 = Outcome.null ↔
      (showLessFrequentlyCount st.prefs ≠ 0 ∧
        (jsLength searchString : Int) ≤
          showLessFrequentlyCount st.prefs + minKeywordLength st.prefs) := by
  unfold makeResult
  by_cases hg : showLessFrequentlyCount st.prefs ≠ 0 ∧
      (jsLength searchString : Int) ≤
        showLessFrequentlyCount st.prefs + minKeywordLength st.prefs
  · rw [if_pos hg]; exact ⟨fun _ => hg, fun _ => rfl⟩
  · rw [if_neg hg]
    constructor
    · intro h
      exfalso
      revert h
      cases parseURL suggestion.url with
      | none => intro h; cases h
      | some url =>
        dsimp only
        split
        · unfold fetchCity
          dsimp only
          cases response with
          | nil => dsimp only; intro h; cases h
          | cons r rest =>
            dsimp only
            cases r.geolocation with
            | none => dsimp only; intro h; cases h
            | some g =>
              dsimp only
              split <;> intro h <;> cases h
        · intro h; cases h
    · intro h; exact absurd h hg

/-- Claim C9: `makeResult` settles to null exactly when the show-less-frequently
count is greater than zero and `searchString.length` is at most the count plus
the minimum keyword length, both prefs being read with missing or negative
values as 0; with a count of 0 nothing is suppressed. -/
theorem makeResult_null_iff (parseURL : String → Option URL)
    (response : List MerinoSuggestion) (st : State) (suggestion : Suggestion)
    (searchString : String) :
    (showLessFrequentlyCount st.prefs = prefReadAsCount st.prefs.yelpShowLessFrequentlyCount ∧
      minKeywordLength st.prefs = prefReadAsCount st.prefs.yelpMinKeywordLength) ∧
    ((makeResult parseURL response st suggestion searchString).2.2 = Outcome.null ↔
      (0 < prefReadAsCount st.prefs.yelpShowLessFrequentlyCount ∧
        (jsLength searchString : Int) ≤
          prefReadAsCount st.prefs.yelpShowLessFrequentlyCount +
            prefReadAsCount st.prefs.yelpMinKeywordLength)) ∧
    (prefReadAsCount st.prefs.yelpShowLessFrequentlyCount = 0 →
      (makeResult parseURL response st suggestion searchString).2.2 ≠ Outcome.null) := by
  have hc : showLessFrequentlyCount st.prefs =
      prefReadAsCount st.prefs.yelpShowLessFrequentlyCount := max_orZero_eq _
  have hm : minKeywordLength st.prefs = prefReadAsCount st.prefs.yelpMinKeywordLength :=
    max_orZero_eq _
  have hnn := showLessFrequentlyCount_nonneg st.prefs
  have hiff := makeResult_guard_iff parseURL response st suggestion searchString
  rw [hc, hm] at hiff
  rw [hc] at hnn
  refine ⟨⟨hc, hm⟩, ?_, ?_⟩
  · rw [hiff]
    constructor
    · rintro ⟨h1, h2⟩; exact ⟨by omega, h2⟩
    · rintro ⟨h1, h2⟩; exact ⟨by omega, h2⟩
  · intro h0 hnull
    rw [hiff] at hnull
    exact hnull.1 h0

/-- Witness for C9: with a stored count of -5, read as 0, and a minimum keyword
length of 4, the one-letter search string is not suppressed. -/
theorem makeResult_null_iff_witness :
    (makeResult yelpParse yelpResponse yelpState yelpSuggestion "r").2.2 ≠ Outcome.null :=
  (makeResult_null_iff yelpParse yelpResponse yelpState yelpSuggestion "r").2.2 (by decide)

theorem buildResult_get (url : URL) (title m : String) (h1 : "utm_medium" ≠ m)
    (h2 : "utm_source" ≠ m) :
    spGet (buildResult url title).url.searchParams m = spGet url.searchParams m := by
  simp only [buildResult]
  rw [spGet_spSet_ne _ _ _ _ h2, spGet_spSet_ne _ _ _ _ h1]

theorem buildResult_has (url : URL) (title m : String) (h1 : "utm_medium" ≠ m)
    (h2 : "utm_source" ≠ m) :
    spHas (buildResult url title).url.searchParams m = spHas url.searchParams m := by
  simp only [buildResult]
  rw [spHas_spSet_ne _ _ _ _ h2, spHas_spSet_ne _ _ _ _ h1]

theorem buildResult_title (url : URL) (title : String) : (buildResult url title).title = title :=
  rfl

theorem fetchCity_fetches (response : List MerinoSuggestion) (st : State) :
    (fetchCity response st).1.fetches =
      st.fetches ++ [{ providers := ["geolocation"], query := "" }] := by
  unfold fetchCity
  cases response with
  | nil => by_cases hm : st.merino = true <;> simp [hm]
  | cons r rest =>
    cases hg : r.geolocation with
    | none => by_cases hm : st.merino = true <;> simp [hm, hg]
    | some g => by_cases hm : st.merino = true <;> simp [hm, hg]

/-- Claim C7: whenever `makeResult` produces a result, it has issued the
geolocation lookup (one Merino fetch with providers `["geolocation"]`) at most
once, and exactly when the parsed suggestion URL has no `find_loc` parameter.
When the lookup yields a non-empty string, `find_loc` of the result URL is
that string and the title is the suggestion title followed by " in " and the
string; when it yields null or the empty string, `find_loc` stays absent and
the title is unchanged. When the URL already has `find_loc`, no lookup is made
and the value of the parameter is kept. -/
theorem makeResult_geolocation_lookup (parseURL : String → Option URL)
    (response : List MerinoSuggestion) (st : State) (suggestion : Suggestion)
    (searchString : String) (st' : State) (suggestion' : Suggestion) (r : UrlbarResult)
    (h : makeResult parseURL response st suggestion searchString =
      (st', suggestion', Outcome.value r)) :
    ∃ url, parseURL suggestion.url = some url ∧
      (∃ issued : List MerinoRequest, st'.fetches = st.fetches ++ issued ∧ issued.length ≤ 1 ∧
        (∀ q ∈ issued, q = { providers := ["geolocation"], query := "" }) ∧
        (issued.length = 1 ↔ spHas url.searchParams "find_loc" = false)) ∧
      (spHas url.searchParams "find_loc" = false →
        (∀ city, (fetchCity response st).2 = Outcome.value city → city ≠ "" →
          spGet r.url.searchParams "find_loc" = some city ∧
            r.title = suggestion.title ++ " in " ++ city) ∧
        ((fetchCity response st).2 = Outcome.null ∨
            (fetchCity response st).2 = Outcome.value "" →
          spHas r.url.searchParams "find_loc" = false ∧ r.title = suggestion.title)) ∧
      (spHas url.searchParams "find_loc" = true →
        st'.fetches = st.fetches ∧
          spGet r.url.searchParams "find_loc" = spGet url.searchParams "find_loc" ∧
          r.title = suggestion.title) := by
  unfold makeResult at h
  split at h
  · cases h
  · cases hp : parseURL suggestion.url with
    | none => rw [hp] at h; cases h
    | some url =>
      rw [hp] at h
      dsimp only at h
      refine ⟨url, rfl, ?_⟩
      cases hf : spHas url.searchParams "find_loc" with
      | true =>
        rw [hf] at h
        simp only [Bool.not_true, Bool.false_eq_true, if_false] at h
        injection h with h1 h2
        injection h2 with h2 h3
        injection h3 with h3
        subst h1 h3
        refine ⟨⟨[], by simp, by simp, by simp, by simp⟩, ?_, ?_⟩
        · intro hc; cases hc
        · intro _
          exact ⟨rfl, buildResult_get url _ _ (by decide) (by decide), rfl⟩
      | false =>
        rw [hf] at h
        simp only [Bool.not_false, if_true] at h
        have hfe := fetchCity_fetches response st
        have hissued : ∀ s : State, s.fetches = st.fetches ++
            [{ providers := ["geolocation"], query := "" }] →
            ∃ issued : List MerinoRequest, s.fetches = st.fetches ++ issued ∧
              issued.length ≤ 1 ∧
              (∀ q ∈ issued, q = { providers := ["geolocation"], query := "" }) ∧
              (issued.length = 1 ↔ false = false) := by
          intro s hs
          exact ⟨_, hs, by simp, by simp, by simp⟩
        rcases hfc : fetchCity response st with ⟨st1, out⟩
        rw [hfc] at h hfe
        dsimp only at hfe
        cases out with
        | typeError => cases h
        | null =>
          dsimp only at h
          injection h with h1 h2
          injection h2 with h2 h3
          injection h3 with h3
          subst h1 h3
          refine ⟨hissued _ hfe, ?_, ?_⟩
          · intro _
            refine ⟨?_, ?_⟩
            · intro city hc; cases hc
            · intro _
              refine ⟨?_, rfl⟩
              rw [buildResult_has url _ _ (by decide) (by decide)]; exact hf
          · intro hc; cases hc
        | value city =>
          dsimp only at h
          by_cases hcity : city ≠ ""
          · rw [if_pos hcity] at h
            injection h with h1 h2
            injection h2 with h2 h3
            injection h3 with h3
            subst h1 h3
            refine ⟨hissued _ hfe, ?_, ?_⟩
            · intro _
              refine ⟨?_, ?_⟩
              · intro city2 hc _
                injection hc with hc
                subst hc
                refine ⟨?_, rfl⟩
                rw [buildResult_get _ _ _ (by decide) (by decide)]
                exact spGet_spSet_self _ _ _
              · rintro (hc | hc)
                · cases hc
                · injection hc with hc
                  exact absurd hc hcity
            · intro hc; cases hc
          · rw [if_neg hcity] at h
            injection h with h1 h2
            injection h2 with h2 h3
            injection h3 with h3
            subst h1 h3
            refine ⟨hissued _ hfe, ?_, ?_⟩
            · intro _
              refine ⟨?_, ?_⟩
              · intro city2 hc hne
                injection hc with hc
                subst hc
                exact absurd hne hcity
              · intro _
                refine ⟨?_, rfl⟩
                rw [buildResult_has url _ _ (by decide) (by decide)]; exact hf
            · intro hc; cases hc

/-- Witness for C7: a suggestion without `find_loc`, searched with "ramen",
with a Merino answer naming Yokohama, Kanagawa: one fetch is logged and the
result carries the city in its URL and title. -/
theorem makeResult_geolocation_lookup_witness :
    makeResult yelpParse yelpResponse yelpState yelpSuggestion "ramen" =
        (yelpStateAfter, { yelpSuggestion with is_top_pick := some false },
          Outcome.value yelpResult) ∧
      (∃ issued : List MerinoRequest,
        yelpStateAfter.fetches = yelpState.fetches ++ issued ∧ issued.length = 1) ∧
      spGet yelpResult.url.searchParams "find_loc" = some "Yokohama, Kanagawa" ∧
      yelpResult.title = yelpSuggestion.title ++ " in " ++ "Yokohama, Kanagawa" := by
  obtain ⟨url, hu, ⟨issued, hi1, _, _, hi4⟩, hno, _⟩ :=
    makeResult_geolocation_lookup yelpParse yelpResponse yelpState yelpSuggestion "ramen"
      yelpStateAfter { yelpSuggestion with is_top_pick := some false } yelpResult rfl
  have hurl : url = (URL.mk "https://www.yelp.com/search" [("find_desc", "ramen")]) := by
    injection hu with hu
    exact hu.symm
  subst hurl
  exact ⟨rfl, ⟨issued, hi1, hi4.2 rfl⟩, (hno rfl).1 "Yokohama, Kanagawa" rfl (by decide)⟩

end YelpSuggestions

namespace Temporal

/-- Claim C6: `BuiltinTimeZoneGetInstantFor` selects by the number of
candidates. One candidate is returned under every policy; of two candidates
`earlier` and `compatible` return the first, `later` the second and `reject`
fails; under `reject` the operation fails with a ResolutionError exactly when
the candidate count is zero or two, and with no other error. -/
theorem BuiltinTimeZoneGetInstantFor_by_candidate_count (timeZone : TimeZone) (dateTime : Int) :
    (∀ c, timeZone.getPossibleInstantsFor dateTime = PossibleInstants.unique c →
      ∀ d, BuiltinTimeZoneGetInstantFor timeZone dateTime d = Except.ok c) ∧
    (∀ first second,
      timeZone.getPossibleInstantsFor dateTime = PossibleInstants.fold first second →
      BuiltinTimeZoneGetInstantFor timeZone dateTime Disambiguation.earlier = Except.ok first ∧
      BuiltinTimeZoneGetInstantFor timeZone dateTime Disambiguation.compatible =
        Except.ok first ∧
      BuiltinTimeZoneGetInstantFor timeZone dateTime Disambiguation.later = Except.ok second ∧
      BuiltinTimeZoneGetInstantFor timeZone dateTime Disambiguation.reject =
        Except.error TemporalError.ResolutionError) ∧
    (BuiltinTimeZoneGetInstantFor timeZone dateTime Disambiguation.reject =
        Except.error TemporalError.ResolutionError ↔
      ((timeZone.getPossibleInstantsFor dateTime).count = 0 ∨
        (timeZone.getPossibleInstantsFor dateTime).count = 2)) ∧
    (∀ e, BuiltinTimeZoneGetInstantFor timeZone dateTime Disambiguation.reject =
        Except.error e → e = TemporalError.ResolutionError) := by
  refine ⟨?_, ?_, ?_, ?_⟩
  · intro c hc d
    simp only [BuiltinTimeZoneGetInstantFor, hc]
  · intro first second hc
    simp only [BuiltinTimeZoneGetInstantFor, hc, and_self]
  · cases hc : timeZone.getPossibleInstantsFor dateTime with
    | gap => simp [BuiltinTimeZoneGetInstantFor, hc, PossibleInstants.count]
    | unique c => simp [BuiltinTimeZoneGetInstantFor, hc, PossibleInstants.count]
    | fold a b => simp [BuiltinTimeZoneGetInstantFor, hc, PossibleInstants.count]
  · intro e
    cases hc : timeZone.getPossibleInstantsFor dateTime with
    | gap =>
      simp only [BuiltinTimeZoneGetInstantFor, hc]
      intro h; injection h with h; exact h.symm
    | unique c =>
      simp only [BuiltinTimeZoneGetInstantFor, hc]
      intro h; cases h
    | fold a b =>
      simp only [BuiltinTimeZoneGetInstantFor, hc]
      intro h; injection h with h; exact h.symm

/-- Witness for C6: UTC has one candidate, `foldZone` has two. -/
theorem BuiltinTimeZoneGetInstantFor_by_candidate_count_witness :
    BuiltinTimeZoneGetInstantFor utc 5 Disambiguation.reject = Except.ok 5 ∧
    BuiltinTimeZoneGetInstantFor foldZone 0 Disambiguation.later = Except.ok 3600000000000 ∧
    BuiltinTimeZoneGetInstantFor foldZone 0 Disambiguation.reject =
      Except.error TemporalError.ResolutionError :=
  ⟨(BuiltinTimeZoneGetInstantFor_by_candidate_count utc 5).1 5 rfl Disambiguation.reject,
    ((BuiltinTimeZoneGetInstantFor_by_candidate_count foldZone 0).2.1 0 3600000000000
      rfl).2.2.1,
    ((BuiltinTimeZoneGetInstantFor_by_candidate_count foldZone 0).2.1 0 3600000000000
      rfl).2.2.2⟩

/-- The value of `dayLengthAt` in terms of the two resolved day starts. -/
theorem dayLengthAt_of_resolved (timeZone : TimeZone) (dayStart s e : Int)
    (hs : BuiltinTimeZoneGetInstantFor timeZone dayStart Disambiguation.compatible = Except.ok s)
    (he : BuiltinTimeZoneGetInstantFor timeZone (dayStart + nsPerDay)
      Disambiguation.compatible = Except.ok e) :
    dayLengthAt timeZone dayStart =
      if |e - s| ≥ dayLengthBound then Except.error TemporalError.UnsafeDayLengthError
      else Except.ok (e - s) := by
  simp only [dayLengthAt, hs, he]

/-- A day length that passes validation is below `2^53` in magnitude. -/
theorem dayLengthAt_ok_bound (timeZone : TimeZone) (dayStart L : Int)
    (h : dayLengthAt timeZone dayStart = Except.ok L) : |L| < dayLengthBound := by
  unfold dayLengthAt at h
  split at h
  · cases h
  · split at h
    · cases h
    · dsimp only at h
      split at h
      · cases h
      · rename_i hlt
        injection h with h
        rw [← h]
        exact lt_of_not_ge hlt

theorem adjustDays_dayLength_bound (timeZone : TimeZone) (sign : Int) :
    ∀ (fuel : Nat) (anchor days remainder dayLength : Int) (r : DaysResult),
      |dayLength| < dayLengthBound →
      adjustDays timeZone sign fuel anchor days remainder dayLength = some (Except.ok r) →
      |r.dayLength| < dayLengthBound := by
  intro fuel
  induction fuel with
  | zero => intro anchor days remainder dayLength r _ h; cases h
  | succ n ih =>
    intro anchor days remainder dayLength r hL h
    unfold adjustDays at h
    dsimp only at h
    cases hd : dayLengthAt timeZone (anchor + sign * nsPerDay) with
    | error e => rw [hd] at h; cases h
    | ok nextLength =>
      rw [hd] at h
      dsimp only at h
      split at h
      · exact ih _ _ _ _ r (dayLengthAt_ok_bound _ _ _ hd) h
      · injection h with h
        injection h with h
        rw [← h]
        exact hL

/-- Claim C2: `NormalizedTimeDurationToDays` fails with the overflow error
whenever a day length it computes as `endInstant - startInstant` has absolute
value at least `2^53`: for the day of the anchor (whatever `norm` is), and for
every day queried again in the loop of step 6, where the turn fails before the
length is compared or subtracted. Every day length it returns is below `2^53`
in magnitude. -/
theorem NormalizedTimeDurationToDays_unsafe_day_length (timeZone : TimeZone) :
    (∀ (fuel : Nat) (norm zonedRelativeTo s e : Int),
      BuiltinTimeZoneGetInstantFor timeZone
          (startOfDay (zonedRelativeTo + timeZone.getOffsetNanosecondsFor zonedRelativeTo))
          Disambiguation.compatible = Except.ok s →
      BuiltinTimeZoneGetInstantFor timeZone
          (startOfDay (zonedRelativeTo + timeZone.getOffsetNanosecondsFor zonedRelativeTo)
            + nsPerDay)
          Disambiguation.compatible = Except.ok e →
      |e - s| ≥ 2 ^ 53 →
      NormalizedTimeDurationToDays fuel norm zonedRelativeTo timeZone =
        some (Except.error TemporalError.UnsafeDayLengthError)) ∧
    (∀ (fuel : Nat) (sign anchor days remainder dayLength s e : Int),
      BuiltinTimeZoneGetInstantFor timeZone (anchor + sign * nsPerDay)
          Disambiguation.compatible = Except.ok s →
      BuiltinTimeZoneGetInstantFor timeZone (anchor + sign * nsPerDay + nsPerDay)
          Disambiguation.compatible = Except.ok e →
      |e - s| ≥ 2 ^ 53 →
      adjustDays timeZone sign (fuel + 1) anchor days remainder dayLength =
        some (Except.error TemporalError.UnsafeDayLengthError)) ∧
    (∀ (fuel : Nat) (norm zonedRelativeTo : Int) (r : DaysResult),
      NormalizedTimeDurationToDays fuel norm zonedRelativeTo timeZone = some (Except.ok r) →
      |r.dayLength| < 2 ^ 53) := by
  refine ⟨?_, ?_, ?_⟩
  · intro fuel norm z s e hs he hbig
    have hd := dayLengthAt_of_resolved timeZone _ s e hs he
    rw [if_pos (by simpa [dayLengthBound] using hbig)] at hd
    simp only [NormalizedTimeDurationToDays, hd]
  · intro fuel sign anchor days remainder dayLength s e hs he hbig
    have hd := dayLengthAt_of_resolved timeZone _ s e hs he
    rw [if_pos (by simpa [dayLengthBound] using hbig)] at hd
    simp only [adjustDays, hd]
  · intro fuel norm z r h
    unfold NormalizedTimeDurationToDays at h
    dsimp only at h
    cases hd : dayLengthAt timeZone
        (startOfDay (z + timeZone.getOffsetNanosecondsFor z)) with
    | error e => rw [hd] at h; cases h
    | ok L =>
      rw [hd] at h
      dsimp only at h
      have hL := dayLengthAt_ok_bound _ _ _ hd
      split at h
      · injection h with h
        injection h with h
        rw [← h]
        exact hL
      · split at h
        · cases h
        · exact adjustDays_dayLength_bound _ _ _ _ _ _ _ r hL h

/-- Witness for C2: anchor 0 with `norm` 1 ns in a time zone that resolves the
next day start to the instant `2^53`, a day length of exactly `2^53`. -/
theorem NormalizedTimeDurationToDays_unsafe_day_length_witness :
    NormalizedTimeDurationToDays 0 1 0 outrageousZone =
      some (Except.error TemporalError.UnsafeDayLengthError) :=
  (NormalizedTimeDurationToDays_unsafe_day_length outrageousZone).1 0 1 0 0 (2 ^ 53)
    rfl rfl (by decide)

theorem sign_cases_of_ne_zero (norm : Int) (hn : norm ≠ 0) :
    (0 < norm ∧ Int.sign norm = 1) ∨ (norm < 0 ∧ Int.sign norm = -1) := by
  rcases lt_trichotomy norm 0 with h | h | h
  · exact Or.inr ⟨h, Int.sign_eq_neg_one_of_neg h⟩
  · exact absurd h hn
  · exact Or.inl ⟨h, Int.sign_eq_one_of_pos h⟩

/-- The loop of step 6 keeps `days` on the side of `sign`. -/
theorem adjustDays_days_sign (timeZone : TimeZone) (sign : Int) :
    ∀ (fuel : Nat) (anchor days remainder dayLength : Int) (r : DaysResult),
      0 ≤ sign * days →
      adjustDays timeZone sign fuel anchor days remainder dayLength = some (Except.ok r) →
      0 ≤ sign * r.days := by
  intro fuel
  induction fuel with
  | zero => intro anchor days remainder dayLength r _ h; cases h
  | succ n ih =>
    intro anchor days remainder dayLength r hd h
    unfold adjustDays at h
    dsimp only at h
    cases hl : dayLengthAt timeZone (anchor + sign * nsPerDay) with
    | error e => rw [hl] at h; cases h
    | ok nextLength =>
      rw [hl] at h
      dsimp only at h
      split at h
      · refine ih _ _ _ _ r ?_ h
        have : sign * (days + sign) = sign * days + sign * sign := by ring
        rw [this]
        have := mul_self_nonneg sign
        omega
      · injection h with h
        injection h with h
        rw [← h]
        exact hd

/-- Claim C4: whenever `NormalizedTimeDurationToDays` returns a result, the
day count it returns, after the loop of step 6, is zero or has the sign of
`norm`. -/
theorem NormalizedTimeDurationToDays_days_sign (fuel : Nat) (norm zonedRelativeTo : Int)
    (timeZone : TimeZone) (r : DaysResult)
    (h : NormalizedTimeDurationToDays fuel norm zonedRelativeTo timeZone = some (Except.ok r)) :
    r.days = 0 ∨ Int.sign r.days = Int.sign norm := by
  unfold NormalizedTimeDurationToDays at h
  dsimp only at h
  cases hl : dayLengthAt timeZone
      (startOfDay (zonedRelativeTo + timeZone.getOffsetNanosecondsFor zonedRelativeTo)) with
  | error e => rw [hl] at h; cases h
  | ok L =>
    rw [hl] at h
    dsimp only at h
    split at h
    · injection h with h
      injection h with h
      rw [← h]
      exact Or.inl rfl
    · rename_i hn
      split at h
      · cases h
      · rename_i hchk
        have h0 : 0 ≤ Int.sign norm * Int.tdiv norm L := by
          by_cases hz : Int.tdiv norm L = 0
          · rw [hz]; simp
          · have hs : Int.sign (Int.tdiv norm L) = Int.sign norm := by
              by_contra hne
              exact hchk ⟨hz, hne⟩
            rw [← hs]
            rcases sign_cases_of_ne_zero _ hz with ⟨hp, hs1⟩ | ⟨hp, hs1⟩
            · rw [hs1]; omega
            · rw [hs1]; omega
        have hr := adjustDays_days_sign timeZone _ fuel _ _ _ _ r h0 h
        rcases sign_cases_of_ne_zero norm hn with ⟨hp, hs1⟩ | ⟨hp, hs1⟩
        · rw [hs1] at hr ⊢
          by_cases hz : r.days = 0
          · exact Or.inl hz
          · exact Or.inr (Int.sign_eq_one_of_pos (by omega))
        · rw [hs1] at hr ⊢
          by_cases hz : r.days = 0
          · exact Or.inl hz
          · exact Or.inr (Int.sign_eq_neg_one_of_neg (by omega))

/-- Witness for C4: three days and five nanoseconds backward in UTC. -/
theorem NormalizedTimeDurationToDays_days_sign_witness :
    (NormalizedTimeDurationToDays 3 (-(3 * nsPerDay + 5)) 7 utc =
        some (Except.ok { days := -3, remainder := -5, dayLength := nsPerDay })) ∧
      ((-3 : Int) = 0 ∨ Int.sign (-3) = Int.sign (-(3 * nsPerDay + 5))) :=
  ⟨rfl,
    NormalizedTimeDurationToDays_days_sign 3 (-(3 * nsPerDay + 5)) 7 utc
      { days := -3, remainder := -5, dayLength := nsPerDay } rfl⟩

end Temporal

